import Mathlib

/-!
Verification of the MIG-NCC measurement pipeline in `src/main.cpp` of
MIG-NCC-Calculation.  The C++ source is shallowly embedded: pure
computations become Lean functions over `ℤ`/`ℚ`/`ℝ`, the two OpenCV
primitives that the spec declares out of scope (the normalized-correlation
matcher and image decoding) are abstracted as parameters, and the
by-reference `cv::Mat` arguments are modelled by explicit state passing.
-/

namespace MigNcc

/-! ### Fixed configuration (src/main.cpp lines 99-106) -/

/-- `EXIT_SUCCESS` as returned by `recursive_folders`. -/
def EXIT_SUCCESS : ℕ := 0

/-- `EXIT_FAILURE` as returned by `recursive_folders` and (as a `double`)
by `mig_frame` on an empty frame. -/
def EXIT_FAILURE : ℕ := 1

/-- Transformation-matrix parameter `Txx` (line 100).  The C++ `double`
literals are exactly representable, so `ℚ` models them faithfully. -/
def Txx : ℚ := -256.75

/-- Transformation-matrix parameter `Txy` (line 101). -/
def Txy : ℚ := 2.5

/-- Transformation-matrix parameter `Tyx` (line 102). -/
def Tyx : ℚ := 3.5

/-- Transformation-matrix parameter `Tyy` (line 103). -/
def Tyy : ℚ := 260.5

/-- Template width `roi_w` (line 106). -/
def roi_w : ℤ := 128

/-- Template height `roi_h` (line 106). -/
def roi_h : ℤ := 128

/-- Template origin column `topLeft_x` (line 106). -/
def topLeft_x : ℤ := 300

/-- Template origin row `topLeft_y` (line 106). -/
def topLeft_y : ℤ := 208

/-- Frame width `frameWidth` (line 106). -/
def frameWidth : ℤ := 728

/-- Frame height `frameHeight` (line 106). -/
def frameHeight : ℤ := 544

/-! ### Rasters and match results -/

/-- A grayscale raster (`cv::Mat`, one channel): row count, column count
and the intensity at each (row, col).  A failed `cv::imread` produces an
empty `Mat`, modelled by `rows = 0` and `cols = 0`. -/
structure Img where
  rows : ℕ
  cols : ℕ
  data : ℕ → ℕ → ℤ

/-- `cv::Point` (integer pixel coordinates, `x` = column, `y` = row). -/
structure Pt where
  x : ℤ
  y : ℤ
  deriving DecidableEq

/-- The `LocAndConf` struct (src/main.cpp lines 28-33): match location,
cross-correlation confidence, and the pixel shift relative to the frame
center. -/
structure LocAndConf where
  match_loc : Pt
  confidence : ℚ
  shift_row : ℤ
  shift_col : ℤ
  deriving DecidableEq

/-- The external matching primitive: `cv::matchTemplate` with
`TM_CCORR_NORMED` followed by `cv::minMaxLoc` (lines 300-301), treated as
a supplied capability.  Given the search raster and the template raster it
returns the argmax location `maxLoc`, the maximal score `maxVal`, and the
two buffers as they stand after the call — allowing even for a primitive
that writes into the rasters handed to it. -/
def MatchPrim : Type := Img → Img → (Pt × ℚ) × Img × Img

/-- `get_results` (src/main.cpp lines 289-311).  `frame` and `roi` are
passed by non-const reference in C++; the two `Img` components of the
result model the state of those caller buffers when the function returns.
Both rasters are deep-copied (`copyTo`, lines 298-299) into the locals
`copy_frame`/`copy_roi`, and those locals are what the primitive receives;
the caller's buffers are returned untouched.  The C++ `int` divisions by 2
truncate toward zero, hence `Int.tdiv`. -/
def get_results (prim : MatchPrim) (frame roi : Img)
    (frameW frameH width height : ℤ) : LocAndConf × Img × Img :=
  let copy_frame := frame
  let copy_roi := roi
  let r := prim copy_frame copy_roi
  let maxLoc := r.1.1
  let maxVal := r.1.2
  (⟨maxLoc, maxVal * 100,
    (maxLoc.y + Int.tdiv height 2) - Int.tdiv frameH 2,
    (maxLoc.x + Int.tdiv width 2) - Int.tdiv frameW 2⟩, frame, roi)

/-- `get_roi` (src/main.cpp lines 280-287): an independent copy of the
`width × height` sub-rectangle of `frame` whose top-left corner is
`(topLeft_x, topLeft_y)`.  The source frame is first copied (`copyTo`),
so the original is not aliased. -/
def get_roi (frame : Img) (width height tlx tly : ℤ) : Img :=
  ⟨height.toNat, width.toNat,
   fun y x => frame.data (tly.toNat + y) (tlx.toNat + x)⟩

/-! ### Calibration transform (src/main.cpp lines 198-199) -/

/-- A 2×2 calibration matrix {Txx, Txy, Tyx, Tyy} as fixed configuration. -/
structure CalibMatrix where
  Txx : ℚ
  Txy : ℚ
  Tyx : ℚ
  Tyy : ℚ
  deriving DecidableEq

/-- The calibration matrix compiled into `recursive_folders`
(lines 100-103). -/
def fixedCalib : CalibMatrix := ⟨Txx, Txy, Tyx, Tyy⟩

/-- The per-frame pixel-to-mm conversion, src/main.cpp lines 198-199:
`shift_col_mm` and `shift_row_mm` computed from the NCC pixel shift by the
inverse of the 2×2 calibration map.  The first component is `distXmm`
(from `shift_col`), the second `distYmm` (from `shift_row`). -/
def calibTransform (T : CalibMatrix) (shift_row shift_col : ℤ) : ℚ × ℚ :=
  (((shift_col * T.Tyy) - (shift_row * T.Txy)) / ((T.Txx * T.Tyy) - (T.Txy * T.Tyx)),
   ((shift_row * T.Txx) - (shift_col * T.Tyx)) / ((T.Txx * T.Tyy) - (T.Txy * T.Tyx)))

/-- Error taxonomy of spec §7 that is relevant to the calibration step. -/
inductive CalibrationError where
  | singularCalibration
  deriving DecidableEq

/-- Modelled from the spec (§4.5): the per-call defensive singularity
check — "must fail with `SingularCalibrationError` if [det] is ever zero
 at call time".  No such check exists in src/main.cpp; this definition
follows the spec's words so that the code's actual behavior
(`calibTransform`, which always divides) can be compared against it. -/
def calibTransformChecked (T : CalibMatrix) (shift_row shift_col : ℤ) :
    Except CalibrationError (ℚ × ℚ) :=
  if (T.Txx * T.Tyy) - (T.Txy * T.Tyx) = 0 then
    Except.error CalibrationError.singularCalibration
  else
    Except.ok (calibTransform T shift_row shift_col)

/-! ### FrameSequencer (src/main.cpp lines 171-178) -/

/-- `a.substr(a.find_first_of("0123456789"))` keeps the suffix of the
filename starting at its first decimal digit; `std::stoi` then parses the
maximal digit prefix of that suffix.  `firstDigitRun` is that digit run:
the first maximal run of decimal digits of the filename (filenames are
modelled as `List Char`, the character sequence of the C++
`std::string`). -/
def firstDigitRun (s : List Char) : List Char :=
  (s.dropWhile (fun c => !c.isDigit)).takeWhile (fun c => c.isDigit)

/-- Decimal value of a digit run, as computed by `std::stoi` on a string
whose leading characters are exactly these digits. -/
def digitsVal (ds : List Char) : ℕ :=
  ds.foldl (fun n c => 10 * n + (c.toNat - 48)) 0

/-- The integer index the comparator of lines 171-178 assigns to a
filename: `std::stoi` applied to the suffix starting at the first digit,
i.e. the value of the first maximal digit run. -/
def parseIndex (s : List Char) : ℕ := digitsVal (firstDigitRun s)

/-- Whether the filename contains a decimal digit at all.  When it does
not, the C++ comparator throws (`substr(npos)`); the claims about the
sequencer assume every filename has a digit run. -/
def hasDigit (s : List Char) : Bool := s.any (fun c => c.isDigit)

/-- The sort of lines 171-178: `std::sort` with comparator
`int_a < int_b`.  `std::sort` guarantees only that the output is a
permutation of the input that is sorted by the comparator; the model
realizes that postcondition with `List.insertionSort` keyed by
`parseIndex`.  The relative order of elements with equal keys is NOT
guaranteed by `std::sort`, so no conclusion about tie order may be drawn
from this model's incidental choice. -/
def sortFiles (l : List (List Char)) : List (List Char) :=
  List.insertionSort (fun a b => parseIndex a ≤ parseIndex b) l

/-! ### SharpnessMeter: `mig_frame` (src/main.cpp lines 264-278) -/

/-- OpenCV's default border handling `BORDER_REFLECT_101`
(`gfedcb|abcdefgh|gfedcba`), as used by `cv::Sobel`: index `-1` maps to
`1`, index `n` maps to `n - 2`; a length-1 axis always maps to `0`
(`cv::borderInterpolate`).  Only offsets in `[-1, n]` arise with a 3×3
kernel. -/
def reflect101 (n : ℕ) (i : ℤ) : ℕ :=
  if n = 1 then 0
  else if i < 0 then (-i).toNat
  else if (n : ℤ) ≤ i then (2 * (n : ℤ) - 2 - i).toNat
  else i.toNat

/-- Pixel access with `BORDER_REFLECT_101` on both axes. -/
def px (f : Img) (y x : ℤ) : ℤ :=
  f.data (reflect101 f.rows y) (reflect101 f.cols x)

/-- `cv::Sobel(frame, dx, CV_32F, 1, 0, 3)` at pixel `(y, x)`: the 3×3
kernel `[1, 2, 1]ᵀ ⬝ [-1, 0, 1]` (derivative along columns, smoothing
along rows).  Integer inputs give exactly representable `CV_32F` values,
so `ℤ` is faithful. -/
def sobelX (f : Img) (y x : ℕ) : ℤ :=
  (px f ((y : ℤ) - 1) ((x : ℤ) + 1) + 2 * px f (y : ℤ) ((x : ℤ) + 1)
      + px f ((y : ℤ) + 1) ((x : ℤ) + 1))
    - (px f ((y : ℤ) - 1) ((x : ℤ) - 1) + 2 * px f (y : ℤ) ((x : ℤ) - 1)
      + px f ((y : ℤ) + 1) ((x : ℤ) - 1))

/-- `cv::Sobel(frame, dy, CV_32F, 0, 1, 3)` at pixel `(y, x)`: the 3×3
kernel `[-1, 0, 1]ᵀ ⬝ [1, 2, 1]`. -/
def sobelY (f : Img) (y x : ℕ) : ℤ :=
  (px f ((y : ℤ) + 1) ((x : ℤ) - 1) + 2 * px f ((y : ℤ) + 1) (x : ℤ)
      + px f ((y : ℤ) + 1) ((x : ℤ) + 1))
    - (px f ((y : ℤ) - 1) ((x : ℤ) - 1) + 2 * px f ((y : ℤ) - 1) (x : ℤ)
      + px f ((y : ℤ) - 1) ((x : ℤ) + 1))

/-- `mig_frame` (src/main.cpp lines 264-278).  On an empty frame the C++
returns `EXIT_FAILURE` (the `int` 1, implicitly converted to the `double`
1.0) — it does NOT raise a distinct error.  Otherwise: Sobel derivatives,
per-pixel magnitude `sqrt(dx² + dy²)` (`cv::magnitude`), summed
(`cv::sum`) and divided by `rows * cols`. -/
noncomputable def mig_frame (f : Img) : ℝ :=
  if f.rows = 0 ∨ f.cols = 0 then ((EXIT_FAILURE : ℕ) : ℝ)
  else
    (∑ y ∈ Finset.range f.rows, ∑ x ∈ Finset.range f.cols,
        Real.sqrt ((sobelX f y x : ℝ) ^ 2 + (sobelY f y x : ℝ) ^ 2))
      / ((f.rows : ℝ) * (f.cols : ℝ))

/-! ### Per-frame record and per-leaf processing
(src/main.cpp lines 156-229) -/

/-- One data row of `Results.csv` (line 217-224): pixel shift X (columns),
pixel shift Y (rows), confidence (%), dist X (mm), dist Y (mm), MIG.  The
four error columns are left empty by the code and carry no data. -/
def Row : Type := ℤ × ℤ × ℚ × ℚ × ℚ × ℝ

/-- The body of the per-frame loop (lines 188-225) for one image: run
`get_results`, convert the pixel shift to mm with the compiled-in
calibration matrix (lines 198-199), and compute `mig_frame(img)` — note
the C++ passes `img` to `mig_frame` after `get_results` has had it by
reference, hence the threading through `r.2.1`.  The second component is
the state of the `(img, roi)` buffers after the iteration. -/
noncomputable def mkRow (prim : MatchPrim) (img roi : Img) : Row × Img × Img :=
  let r := get_results prim img roi frameWidth frameHeight roi_w roi_h
  let ncc := r.1
  let mm := calibTransform fixedCalib ncc.shift_row ncc.shift_col
  ((ncc.shift_col, ncc.shift_row, ncc.confidence, mm.1, mm.2, mig_frame r.2.1),
   r.2)

/-- The per-frame loop of one experiment folder: each iteration hands the
unit's `roi` buffer (held by reference in C++) to `get_results` and passes
whatever that leaves in the buffer on to the next iteration. -/
noncomputable def processRows (prim : MatchPrim) : Img → List Img → List Row × Img
  | roi, [] => ([], roi)
  | roi, img :: rest =>
    let r := mkRow prim img roi
    let out := processRows prim r.2.2 rest
    (r.1 :: out.1, out.2)

/-- The filename of the reference frame, `frame_0.png` (line 182). -/
def frame0Name : List Char :=
  ['f', 'r', 'a', 'm', 'e', '_', '0', '.', 'p', 'n', 'g']

/-- One leaf (experiment) directory: whether its `Results.csv` can be
opened, the filenames its directory iterator yields, and the decoded
raster behind each filename (the image-decode capability for this leaf). -/
structure Leaf where
  canOpenCsv : Bool
  files : List (List Char)
  imgAt : List Char → Img

/-- Lines 160-225 for one leaf whose csv opened: sort the filenames,
extract the template from `frame_0.png` (lines 182-184), then produce one
row per sorted filename. -/
noncomputable def leafOutput (prim : MatchPrim) (l : Leaf) : List Row :=
  let file_names := sortFiles l.files
  let frame_0 := l.imgAt frame0Name
  let roi := get_roi frame_0 roi_w roi_h topLeft_x topLeft_y
  (processRows prim roi (file_names.map l.imgAt)).1

/-- The experiment-directory loop (lines 135-231): units are processed in
order; a leaf whose `Results.csv` does not open makes the whole function
return `EXIT_FAILURE` at once (lines 151-155), so later leaves of the same
movement directory are not reached.  Result: the tables that were
completed, and whether the loop ran to completion. -/
noncomputable def runLeaves (prim : MatchPrim) : List Leaf → List (List Row) × Bool
  | [] => ([], true)
  | l :: rest =>
    if l.canOpenCsv then
      let o := runLeaves prim rest
      (leafOutput prim l :: o.1, o.2)
    else ([], false)

/-- The movement-directory loop (lines 128-233): an early `return` from a
leaf propagates out of this loop too. -/
noncomputable def runMoves (prim : MatchPrim) : List (List Leaf) → List (List Row) × Bool
  | [] => ([], true)
  | m :: rest =>
    let o := runLeaves prim m
    if o.2 then
      let o2 := runMoves prim rest
      (o.1 ++ o2.1, o2.2)
    else (o.1, false)

/-- The camera-parameter-directory loop (lines 121-235). -/
noncomputable def runGains (prim : MatchPrim) :
    List (List (List Leaf)) → List (List Row) × Bool
  | [] => ([], true)
  | g :: rest =>
    let o := runMoves prim g
    if o.2 then
      let o2 := runGains prim rest
      (o.1 ++ o2.1, o2.2)
    else (o.1, false)

/-- `recursive_folders` (src/main.cpp lines 97-238) over the discovered
three-level directory tree (only directory entries are descended into;
`rootExists` is the check of line 109).  Returns the completed per-leaf
tables and the exit code.  A csv-open failure anywhere returns
`EXIT_FAILURE` for the whole run (lines 151-155); a run that processes
every leaf returns `EXIT_SUCCESS`. -/
noncomputable def recursive_folders (prim : MatchPrim) (rootExists : Bool)
    (t : List (List (List Leaf))) : List (List Row) × ℕ :=
  if rootExists then
    let o := runGains prim t
    (o.1, if o.2 then EXIT_SUCCESS else EXIT_FAILURE)
  else ([], EXIT_FAILURE)

/-- The leaves of the tree in traversal order. -/
def flatLeaves (t : List (List (List Leaf))) : List Leaf :=
  t.flatten.flatten

/-! ### Concrete fixtures used by witnesses and counterexamples -/

/-- The all-zero empty raster of a failed decode. -/
def emptyFrame : Img := ⟨0, 0, fun _ _ => 0⟩

/-- A legitimate non-empty 1×4 frame `[0, 0, 1, 0]` whose MIG is exactly
1 — the same value `mig_frame` returns for a failed decode. -/
def spikeFrame : Img := ⟨1, 4, fun _ x => if x = 2 then 1 else 0⟩

/-- A uniform 2×2 frame of intensity 7. -/
def uni2 : Img := ⟨2, 2, fun _ _ => 7⟩

/-- A matching primitive that reports the template at the cut-out
rectangle `(topLeft_x, topLeft_y)` with a perfect score, leaving its
input buffers alone. -/
def primId : MatchPrim := fun f r => ((⟨topLeft_x, topLeft_y⟩, 1), f, r)

/-- A singular calibration matrix (det = 0). -/
def singularT : CalibMatrix := ⟨1, 1, 1, 1⟩

/-- Example filenames with embedded indices 10, 2 and 0. -/
def fnameA : List Char :=
  ['f', 'r', 'a', 'm', 'e', '_', '1', '0', '.', 'p', 'n', 'g']

/-- Filename with index 2. -/
def fnameB : List Char :=
  ['f', 'r', 'a', 'm', 'e', '_', '2', '.', 'p', 'n', 'g']

/-- Filename with index 0. -/
def fnameC : List Char :=
  ['f', 'r', 'a', 'm', 'e', '_', '0', '.', 'p', 'n', 'g']

/-- A leaf whose `Results.csv` opens, with no frames. -/
def leafT : Leaf := ⟨true, [], fun _ => emptyFrame⟩

/-- A leaf whose `Results.csv` fails to open. -/
def leafF : Leaf := ⟨false, [], fun _ => emptyFrame⟩

/-! ## Theorems -/

/-- C1: for every frame, `get_results` returns confidence equal to the
matching primitive's score multiplied by 100, `shiftRow` equal to
`(matchLoc.y + templateHeight/2) − (frameHeight/2)` and `shiftCol` equal
to `(matchLoc.x + templateWidth/2) − (frameWidth/2)`, the divisions by 2
being integer divisions truncating toward zero (`Int.tdiv`). -/
theorem get_results_formulas (prim : MatchPrim) (frame roi : Img)
    (frameW frameH width height : ℤ) :
    ((get_results prim frame roi frameW frameH width height).1.confidence
        = (prim frame roi).1.2 * 100)
    ∧ ((get_results prim frame roi frameW frameH width height).1.shift_row
        = ((prim frame roi).1.1.y + Int.tdiv height 2) - Int.tdiv frameH 2)
    ∧ ((get_results prim frame roi frameW frameH width height).1.shift_col
        = ((prim frame roi).1.1.x + Int.tdiv width 2) - Int.tdiv frameW 2) :=
  ⟨rfl, rfl, rfl⟩

/-- C5: with the fixed configuration (128×128 template at (300, 208),
728×544 frame), a primitive that locates the template exactly at the
rectangle it was cut from with score 1 makes `get_results` report
`shift_row = 0`, `shift_col = 0` and `confidence = 100`. -/
theorem identity_match_zero_shift (prim : MatchPrim) (frame roi : Img)
    (hloc : (prim frame roi).1.1 = ⟨topLeft_x, topLeft_y⟩)
    (hscore : (prim frame roi).1.2 = 1) :
    ((get_results prim frame roi frameWidth frameHeight roi_w roi_h).1.shift_row = 0)
    ∧ ((get_results prim frame roi frameWidth frameHeight roi_w roi_h).1.shift_col = 0)
    ∧ ((get_results prim frame roi frameWidth frameHeight roi_w roi_h).1.confidence = 100) := by
  refine ⟨?_, ?_, ?_⟩ <;>
    simp [get_results, hloc, hscore, roi_w, roi_h, topLeft_x, topLeft_y,
      frameWidth, frameHeight] <;> decide

/-- Witness for C5 at a concrete primitive. -/
theorem identity_match_zero_shift_witness :
    ((primId emptyFrame emptyFrame).1.1 = ⟨topLeft_x, topLeft_y⟩)
    ∧ ((primId emptyFrame emptyFrame).1.2 = 1)
    ∧ (((get_results primId emptyFrame emptyFrame frameWidth frameHeight roi_w roi_h).1.shift_row = 0)
      ∧ ((get_results primId emptyFrame emptyFrame frameWidth frameHeight roi_w roi_h).1.shift_col = 0)
      ∧ ((get_results primId emptyFrame emptyFrame frameWidth frameHeight roi_w roi_h).1.confidence = 100)) :=
  ⟨rfl, rfl, identity_match_zero_shift primId emptyFrame emptyFrame rfl rfl⟩

/-- Helper: threading the template buffer through the per-frame loop
changes nothing — every iteration receives the original template and the
final buffer equals the initial one. -/
theorem processRows_const_roi (prim : MatchPrim) (roi : Img) (frames : List Img) :
    processRows prim roi frames
      = (frames.map (fun img => (mkRow prim img roi).1), roi) := by
  induction frames with
  | nil => rfl
  | cons img rest ih =>
    simp only [processRows, List.map_cons]
    have h2 : (mkRow prim img roi).2.2 = roi := rfl
    rw [h2, ih]

/-- C10: `get_results` never mutates its frame or template arguments —
the caller's buffers come back exactly as passed (both rasters are
deep-copied before the matching primitive runs, so even a primitive that
writes into what it is given cannot reach them) — and consequently every
frame of a unit is matched against the template the unit started with. -/
theorem get_results_no_mutation (prim : MatchPrim) (frame roi : Img)
    (frameW frameH width height : ℤ) (frames : List Img) :
    ((get_results prim frame roi frameW frameH width height).2 = (frame, roi))
    ∧ (processRows prim roi frames
        = (frames.map (fun img => (mkRow prim img roi).1), roi)) :=
  ⟨rfl, processRows_const_roi prim roi frames⟩

/-- C3: for every non-singular calibration matrix, applying the forward
matrix `[[Txx, Txy], [Tyx, Tyy]]` to the mm output of the code's
transform recovers the original pixel shift `(shiftCol, shiftRow)`. -/
theorem calib_roundtrip (T : CalibMatrix) (r c : ℤ)
    (h : T.Txx * T.Tyy - T.Txy * T.Tyx ≠ 0) :
    (T.Txx * (calibTransform T r c).1 + T.Txy * (calibTransform T r c).2 = (c : ℚ))
    ∧ (T.Tyx * (calibTransform T r c).1 + T.Tyy * (calibTransform T r c).2 = (r : ℚ)) := by
  simp only [calibTransform]
  constructor <;> field_simp <;> ring

/-- Witness for C3 at the compiled-in matrix and shift (3, −4). -/
theorem calib_roundtrip_witness :
    (fixedCalib.Txx * fixedCalib.Tyy - fixedCalib.Txy * fixedCalib.Tyx ≠ 0)
    ∧ ((fixedCalib.Txx * (calibTransform fixedCalib 3 (-4)).1
          + fixedCalib.Txy * (calibTransform fixedCalib 3 (-4)).2 = ((-4 : ℤ) : ℚ))
      ∧ (fixedCalib.Tyx * (calibTransform fixedCalib 3 (-4)).1
          + fixedCalib.Tyy * (calibTransform fixedCalib 3 (-4)).2 = ((3 : ℤ) : ℚ))) :=
  ⟨by norm_num [fixedCalib, Txx, Txy, Tyx, Tyy],
   calib_roundtrip fixedCalib 3 (-4) (by norm_num [fixedCalib, Txx, Txy, Tyx, Tyy])⟩

/-- C8 counterexample: the code's per-frame conversion performs no
singularity check — at a singular matrix it still produces a numeric pair
instead of the `SingularCalibrationError` failure the spec's checked
transform prescribes. -/
theorem calib_no_singular_check :
    Except.ok (calibTransform singularT 1 2) ≠ calibTransformChecked singularT 1 2 := by
  simp [calibTransformChecked, singularT]

/-- C8 amended: the compiled-in matrix has determinant −66892.125 ≠ 0, so
in every per-frame call of this program the division runs with a non-zero
determinant and the (spec-modelled) checked transform agrees with the
code's unchecked one; no per-call defensive check exists in the code. -/
theorem calib_fixed_det_nonzero :
    (fixedCalib.Txx * fixedCalib.Tyy - fixedCalib.Txy * fixedCalib.Tyx = -66892.125)
    ∧ (fixedCalib.Txx * fixedCalib.Tyy - fixedCalib.Txy * fixedCalib.Tyx ≠ 0)
    ∧ ∀ r c : ℤ, calibTransformChecked fixedCalib r c
        = Except.ok (calibTransform fixedCalib r c) := by
  refine ⟨by norm_num [fixedCalib, Txx, Txy, Tyx, Tyy], ?_, ?_⟩
  · norm_num [fixedCalib, Txx, Txy, Tyx, Tyy]
  · intro r c
    rw [calibTransformChecked, if_neg (by norm_num [fixedCalib, Txx, Txy, Tyx, Tyy])]

/-- Helper: the sequencer's output is weakly sorted by parsed index. -/
theorem sortFiles_sorted (l : List (List Char)) :
    List.Sorted (fun a b => parseIndex a ≤ parseIndex b) (sortFiles l) := by
  haveI : IsTotal (List Char) (fun a b => parseIndex a ≤ parseIndex b) :=
    ⟨fun a b => Nat.le_total _ _⟩
  haveI : IsTrans (List Char) (fun a b => parseIndex a ≤ parseIndex b) :=
    ⟨fun _ _ _ h1 h2 => le_trans h1 h2⟩
  exact List.sorted_insertionSort _ l

/-- Helper: the sequencer's output is a permutation of its input. -/
theorem sortFiles_perm (l : List (List Char)) : (sortFiles l).Perm l :=
  List.perm_insertionSort _ l

/-- Helper: with pairwise-distinct parsed indices the output is strictly
increasing by parsed index. -/
theorem sortFiles_strict (l : List (List Char))
    (hdist : l.Pairwise (fun a b => parseIndex a ≠ parseIndex b)) :
    (sortFiles l).Pairwise (fun a b => parseIndex a < parseIndex b) := by
  have hd : (sortFiles l).Pairwise (fun a b => parseIndex a ≠ parseIndex b) :=
    ((sortFiles_perm l).pairwise_iff (fun h => h.symm)).mpr hdist
  have hs : (sortFiles l).Pairwise (fun a b => parseIndex a ≤ parseIndex b) :=
    sortFiles_sorted l
  exact (hs.and hd).imp (fun h => lt_of_le_of_ne h.1 h.2)

/-- C4: for every leaf filename list in which each filename contains a
digit run, the sequencer keys each filename by its first maximal run of
decimal digits (`parseIndex`) and outputs the filenames sorted ascending
by that key — strictly increasing when the keys are pairwise distinct —
and, keys being distinct, the output is the same for any enumeration
order of the same filenames. -/
theorem frameSequencer_sorts (l l' : List (List Char))
    (_hdig : ∀ s ∈ l, hasDigit s = true)
    (hdist : l.Pairwise (fun a b => parseIndex a ≠ parseIndex b))
    (hperm : l.Perm l') :
    ((sortFiles l).Pairwise (fun a b => parseIndex a < parseIndex b))
    ∧ (sortFiles l' = sortFiles l)
    ∧ ((sortFiles l).Perm l) := by
  have hstrict := sortFiles_strict l hdist
  have hdist' : l'.Pairwise (fun a b => parseIndex a ≠ parseIndex b) :=
    (hperm.pairwise_iff (fun h => h.symm)).mp hdist
  have hstrict' := sortFiles_strict l' hdist'
  have hp : (sortFiles l').Perm (sortFiles l) :=
    ((sortFiles_perm l').trans hperm.symm).trans (sortFiles_perm l).symm
  haveI : IsAntisymm (List Char) (fun a b => parseIndex a < parseIndex b) :=
    ⟨fun _ _ h1 h2 => absurd h2 (Nat.lt_asymm h1)⟩
  exact ⟨hstrict, List.eq_of_perm_of_sorted hp hstrict' hstrict, sortFiles_perm l⟩

/-- Witness for C4 on the filename list
`[frame_10.png, frame_2.png, frame_0.png]` and a rotation of it. -/
theorem frameSequencer_sorts_witness :
    (∀ s ∈ [fnameA, fnameB, fnameC], hasDigit s = true)
    ∧ ([fnameA, fnameB, fnameC].Pairwise (fun a b => parseIndex a ≠ parseIndex b))
    ∧ ([fnameA, fnameB, fnameC].Perm [fnameB, fnameC, fnameA])
    ∧ (((sortFiles [fnameA, fnameB, fnameC]).Pairwise
          (fun a b => parseIndex a < parseIndex b))
      ∧ (sortFiles [fnameB, fnameC, fnameA] = sortFiles [fnameA, fnameB, fnameC])
      ∧ ((sortFiles [fnameA, fnameB, fnameC]).Perm [fnameA, fnameB, fnameC])) :=
  ⟨by decide, by decide, by decide,
   frameSequencer_sorts [fnameA, fnameB, fnameC] [fnameB, fnameC, fnameA]
     (by decide) (by decide) (by decide)⟩

/-- Helper: for a non-degenerate axis, `BORDER_REFLECT_101` maps every
offset a 3×3 kernel can produce back into the valid index range. -/
theorem reflect101_lt (n : ℕ) (i : ℤ) (hn : 0 < n) (h1 : -1 ≤ i) (h2 : i ≤ n) :
    reflect101 n i < n := by
  simp only [reflect101]
  split_ifs <;> omega

/-- Helper: on a uniform raster every border-reflected pixel access a 3×3
kernel makes returns the constant. -/
theorem px_uniform (f : Img) (c : ℤ) (hr : 0 < f.rows) (hc : 0 < f.cols)
    (hu : ∀ y, y < f.rows → ∀ x, x < f.cols → f.data y x = c)
    (j i : ℤ) (hj1 : -1 ≤ j) (hj2 : j ≤ f.rows) (hi1 : -1 ≤ i) (hi2 : i ≤ f.cols) :
    px f j i = c :=
  hu _ (reflect101_lt f.rows j hr hj1 hj2) _ (reflect101_lt f.cols i hc hi1 hi2)

/-- Helper: both Sobel responses vanish on a uniform raster. -/
theorem sobel_uniform (f : Img) (c : ℤ) (hr : 0 < f.rows) (hc : 0 < f.cols)
    (hu : ∀ y, y < f.rows → ∀ x, x < f.cols → f.data y x = c)
    (y x : ℕ) (hy : y < f.rows) (hx : x < f.cols) :
    sobelX f y x = 0 ∧ sobelY f y x = 0 := by
  have hpx : ∀ j i : ℤ, -1 ≤ j → j ≤ f.rows → -1 ≤ i → i ≤ f.cols → px f j i = c :=
    fun j i a b d e => px_uniform f c hr hc hu j i a b d e
  constructor <;>
    · simp only [sobelX, sobelY]
      rw [hpx ((y : ℤ) - 1) ((x : ℤ) + 1) (by omega) (by omega) (by omega) (by omega),
        hpx ((y : ℤ) - 1) ((x : ℤ) - 1) (by omega) (by omega) (by omega) (by omega),
        hpx ((y : ℤ) + 1) ((x : ℤ) + 1) (by omega) (by omega) (by omega) (by omega),
        hpx ((y : ℤ) + 1) ((x : ℤ) - 1) (by omega) (by omega) (by omega) (by omega)]
      first
      | rw [hpx (y : ℤ) ((x : ℤ) + 1) (by omega) (by omega) (by omega) (by omega),
          hpx (y : ℤ) ((x : ℤ) - 1) (by omega) (by omega) (by omega) (by omega)]
      | rw [hpx ((y : ℤ) + 1) (x : ℤ) (by omega) (by omega) (by omega) (by omega),
          hpx ((y : ℤ) - 1) (x : ℤ) (by omega) (by omega) (by omega) (by omega)]
      ring

/-- C6: for every non-empty frame of uniform intensity, the MIG computed
by `mig_frame` (3×3 Sobel derivatives, per-pixel magnitude
`sqrt(dx² + dy²)`, summed over all pixels, divided by the pixel count) is
exactly 0. -/
theorem mig_uniform_eq_zero (f : Img) (c : ℤ) (hr : 0 < f.rows) (hc : 0 < f.cols)
    (hu : ∀ y, y < f.rows → ∀ x, x < f.cols → f.data y x = c) :
    mig_frame f = 0 := by
  rw [mig_frame, if_neg (by omega : ¬(f.rows = 0 ∨ f.cols = 0))]
  have hz : (∑ y ∈ Finset.range f.rows, ∑ x ∈ Finset.range f.cols,
      Real.sqrt ((sobelX f y x : ℝ) ^ 2 + (sobelY f y x : ℝ) ^ 2)) = 0 := by
    refine Finset.sum_eq_zero (fun y hy => Finset.sum_eq_zero (fun x hx => ?_))
    obtain ⟨ex, ey⟩ := sobel_uniform f c hr hc hu y x
      (Finset.mem_range.mp hy) (Finset.mem_range.mp hx)
    rw [ex, ey]
    norm_num
  rw [hz, zero_div]

/-- Witness for C6 on a uniform 2×2 frame of intensity 7. -/
theorem mig_uniform_eq_zero_witness :
    ((0 < uni2.rows) ∧ (0 < uni2.cols)
      ∧ (∀ y, y < uni2.rows → ∀ x, x < uni2.cols → uni2.data y x = 7))
    ∧ mig_frame uni2 = 0 :=
  ⟨⟨by decide, by decide, by decide⟩,
   mig_uniform_eq_zero uni2 7 (by decide) (by decide) (by decide)⟩

/-- C2 fails on the code (code bug): on a null/zero-sized raster
`mig_frame` does not short-circuit with a distinct error — it returns the
numeric value `EXIT_FAILURE` = 1.0, and that value collides with a
legitimate MIG: the non-empty 1×4 frame `[0, 0, 1, 0]` has MIG exactly
1.0 as well. -/
theorem mig_failure_value_collides :
    (mig_frame emptyFrame = ((EXIT_FAILURE : ℕ) : ℝ))
    ∧ (mig_frame spikeFrame = ((EXIT_FAILURE : ℕ) : ℝ))
    ∧ (0 < spikeFrame.rows ∧ 0 < spikeFrame.cols) := by
  refine ⟨?_, ?_, by decide, by decide⟩
  · rw [mig_frame,
      if_pos (show emptyFrame.rows = 0 ∨ emptyFrame.cols = 0 by decide)]
  · have e0 : sobelX spikeFrame 0 0 = 0 := by decide
    have e1 : sobelX spikeFrame 0 1 = 4 := by decide
    have e2 : sobelX spikeFrame 0 2 = 0 := by decide
    have e3 : sobelX spikeFrame 0 3 = 0 := by decide
    have g0 : sobelY spikeFrame 0 0 = 0 := by decide
    have g1 : sobelY spikeFrame 0 1 = 0 := by decide
    have g2 : sobelY spikeFrame 0 2 = 0 := by decide
    have g3 : sobelY spikeFrame 0 3 = 0 := by decide
    have hsum : (∑ y ∈ Finset.range spikeFrame.rows, ∑ x ∈ Finset.range spikeFrame.cols,
        Real.sqrt ((sobelX spikeFrame y x : ℝ) ^ 2 + (sobelY spikeFrame y x : ℝ) ^ 2)) = 4 := by
      have hr : spikeFrame.rows = 1 := rfl
      have hc : spikeFrame.cols = 4 := rfl
      rw [hr, hc, Finset.sum_range_one, Finset.sum_range_succ, Finset.sum_range_succ,
        Finset.sum_range_succ, Finset.sum_range_one, e0, e1, e2, e3, g0, g1, g2, g3]
      push_cast
      rw [show ((4 : ℝ) ^ 2 + 0 ^ 2) = 4 ^ 2 by ring, Real.sqrt_sq (by norm_num)]
      simp
    rw [mig_frame, if_neg (by decide : ¬(spikeFrame.rows = 0 ∨ spikeFrame.cols = 0)), hsum]
    have hr : spikeFrame.rows = 1 := rfl
    have hc : spikeFrame.cols = 4 := rfl
    rw [hr, hc]
    norm_num [EXIT_FAILURE]

/-- Helper: `takeWhile` across an append. -/
theorem takeWhile_append_flat {α : Type} (p : α → Bool) (a b : List α) :
    (a ++ b).takeWhile p
      = if a.all p then a ++ b.takeWhile p else a.takeWhile p := by
  induction a with
  | nil => simp
  | cons x xs ih =>
    cases hp : p x with
    | false => simp [List.takeWhile_cons, hp]
    | true =>
      simp only [List.cons_append, List.takeWhile_cons, hp, if_true, ih,
        List.all_cons, Bool.true_and]
      split <;> rfl

/-- Helper: `takeWhile` of a list on which all elements pass. -/
theorem takeWhile_of_all {α : Type} (p : α → Bool) (a : List α)
    (h : a.all p = true) : a.takeWhile p = a := by
  induction a with
  | nil => rfl
  | cons x xs ih =>
    rw [List.all_cons, Bool.and_eq_true] at h
    simp [List.takeWhile_cons, h.1, ih h.2]

/-- Helper: `takeWhile` and `all` across a failing element. -/
theorem takeWhile_middle_false {α : Type} (p : α → Bool) (pre post : List α)
    (u : α) (hpre : ∀ l ∈ pre, p l = true) (hu : p u = false) :
    (((pre ++ u :: post).takeWhile p = pre)
      ∧ ((pre ++ u :: post).all p = false)) := by
  induction pre with
  | nil => simp [List.takeWhile_cons, hu, List.all_cons]
  | cons a as ih =>
    have ha : p a = true := hpre a (by simp)
    have ih2 := ih (fun l hl => hpre l (by simp [hl]))
    simp [List.takeWhile_cons, ha, List.all_cons, ih2.1, ih2.2]

/-- Helper: the leaf loop completes exactly the leaves up to the first
csv-open failure. -/
theorem runLeaves_eq (prim : MatchPrim) (ls : List Leaf) :
    runLeaves prim ls
      = ((ls.takeWhile (fun l => l.canOpenCsv)).map (leafOutput prim),
        ls.all (fun l => l.canOpenCsv)) := by
  induction ls with
  | nil => rfl
  | cons l rest ih =>
    cases hl : l.canOpenCsv with
    | false => simp [runLeaves, hl, List.takeWhile_cons, List.all_cons]
    | true => simp [runLeaves, hl, List.takeWhile_cons, List.all_cons, ih]

/-- Helper: the movement loop, flattened. -/
theorem runMoves_eq (prim : MatchPrim) (ms : List (List Leaf)) :
    runMoves prim ms
      = ((ms.flatten.takeWhile (fun l => l.canOpenCsv)).map (leafOutput prim),
        ms.flatten.all (fun l => l.canOpenCsv)) := by
  induction ms with
  | nil => rfl
  | cons m rest ih =>
    rw [List.flatten_cons, takeWhile_append_flat, List.all_append]
    cases hm : m.all (fun l => l.canOpenCsv) with
    | false =>
      simp only [runMoves, runLeaves_eq prim m, hm, Bool.false_and]
      simp
    | true =>
      simp only [runMoves, runLeaves_eq prim m, hm, Bool.true_and, ih,
        takeWhile_of_all _ m hm, List.map_append]
      simp

/-- Helper: the whole traversal, flattened to the leaf sequence. -/
theorem runGains_eq (prim : MatchPrim) (t : List (List (List Leaf))) :
    runGains prim t
      = (((flatLeaves t).takeWhile (fun l => l.canOpenCsv)).map (leafOutput prim),
        (flatLeaves t).all (fun l => l.canOpenCsv)) := by
  induction t with
  | nil => rfl
  | cons g rest ih =>
    have hfl : flatLeaves (g :: rest) = g.flatten ++ flatLeaves rest := by
      simp [flatLeaves]
    rw [hfl, takeWhile_append_flat, List.all_append]
    cases hg : g.flatten.all (fun l => l.canOpenCsv) with
    | false =>
      simp only [runGains, runMoves_eq prim g, hg, Bool.false_and]
      simp
    | true =>
      simp only [runGains, runMoves_eq prim g, hg, Bool.true_and, ih,
        takeWhile_of_all _ g.flatten hg, List.map_append]
      simp

/-- C9: if any leaf's `Results.csv` cannot be opened, `recursive_folders`
returns `EXIT_FAILURE` for the whole run, and the completed tables are
exactly those of the leaves strictly before the failing one — every
remaining unit of the entire run (same movement directory, sibling and
later directories alike) is abandoned. -/
theorem csv_open_failure_run_fatal (prim : MatchPrim)
    (t : List (List (List Leaf))) (pre post : List Leaf) (u : Leaf)
    (hsplit : flatLeaves t = pre ++ u :: post)
    (hpre : ∀ l ∈ pre, l.canOpenCsv = true)
    (hu : u.canOpenCsv = false) :
    recursive_folders prim true t = (pre.map (leafOutput prim), EXIT_FAILURE) := by
  have hmid := takeWhile_middle_false (fun l => l.canOpenCsv) pre post u hpre hu
  have h1 : runGains prim t = (pre.map (leafOutput prim), false) := by
    rw [runGains_eq, hsplit, hmid.1, hmid.2]
  simp only [recursive_folders, h1, if_true]
  rfl

/-- Witness for C9: a tree with one opening leaf followed by one whose
csv fails. -/
theorem csv_open_failure_run_fatal_witness :
    (flatLeaves [[[leafT, leafF]]] = [leafT] ++ leafF :: [])
    ∧ (∀ l ∈ [leafT], l.canOpenCsv = true)
    ∧ (leafF.canOpenCsv = false)
    ∧ (recursive_folders primId true [[[leafT, leafF]]]
        = ([leafT].map (leafOutput primId), EXIT_FAILURE)) :=
  ⟨rfl, by simp [leafT], rfl,
   csv_open_failure_run_fatal primId [[[leafT, leafF]]] [leafT] [] leafF rfl
     (by simp [leafT]) rfl⟩

end MigNcc
